import Mathlib

/-!
Shallow embedding of `action_plugins/versions.py` from the `ansible-aipscan`
repository: an Ansible action plugin that resolves three version strings
(the AIPscan package version from PyPI metadata, the latest uv release tag
from a GitHub redirect, and the Python version pinned by the resolved
AIPscan release), with an HTTP retry client and an orchestrating `run`.

The network is modelled by passing the outcome of each HTTP operation as an
explicit argument (exactly as the repository's own tests inject a fake HTTP
client); Python exceptions become an explicit `Except` error channel.
-/

namespace Versions

/-! ### Python string helpers (`_trim`, `str.strip`) -/

/-- Characters stripped by Python's `str.strip()` (the ASCII whitespace set). -/
def pyIsSpace (c : Char) : Bool :=
  c = ' ' || c = '\t' || c = '\n' || c = '\r' || c = '\x0b' || c = '\x0c'

/-- Remove trailing characters satisfying `p`. -/
def dropTrailing (p : Char → Bool) (l : List Char) : List Char :=
  (l.reverse.dropWhile p).reverse

/-- Model of Python `s.strip()` for strings. -/
def pyStrip (s : String) : String :=
  String.mk (dropTrailing pyIsSpace (s.data.dropWhile pyIsSpace))

/-- Model of `_trim(value)` = `(value or "").strip()` applied to an optional
string (`None` behaves as the empty string). -/
def pyTrimOpt (v : Option String) : String :=
  pyStrip (v.getD "")

/-! ### Module-level constants -/

def PYPI_AIPSCAN_METADATA_URL : String := "https://pypi.org/pypi/aipscan/json"

def UV_LATEST_RELEASE_URL : String := "https://github.com/astral-sh/uv/releases/latest"

/-- Model of `PYTHON_VERSION_TEMPLATE.format(tag=tag)`. -/
def pythonVersionTemplateFormat (tag : String) : String :=
  "https://raw.githubusercontent.com/artefactual-labs/AIPscan/refs/tags/" ++ tag
    ++ "/.python-version"

def DEFAULT_TIMEOUT : Int := 15

def HTTP_RETRIES : Nat := 3

def HTTP_RETRY_BACKOFF : Rat := 1 / 2

/-! ### Exceptions and HTTP outcomes -/

/-- The Python exceptions that flow through the plugin. -/
inductive PyExc where
  | resolutionError (msg : String)
  | httpError (code : Nat) (headers : List (String × String))
  | urlError (msg : String)
  | unicodeDecodeError (desc : String)
  | attributeError (desc : String)
deriving DecidableEq, Repr

/-- A response body as returned by `fetch_bytes`: either bytes that decode
to a UTF-8 string or bytes whose `.decode("utf-8")` raises
`UnicodeDecodeError` (described by `desc`). -/
inductive PyBytes where
  | utf8 (s : String)
  | invalid (desc : String)
deriving DecidableEq, Repr

/-- Outcome of one `http_client.fetch_bytes(url, timeout)` call. -/
inductive FetchOutcome where
  | ok (body : PyBytes)
  | httpError (code : Nat) (headers : List (String × String))
  | urlError (msg : String)
deriving DecidableEq, Repr

/-- Outcome of one `http_client.head(url, timeout, opener=...)` call. -/
inductive HeadOutcome where
  | ok
  | httpError (code : Nat) (headers : List (String × String))
  | urlError (msg : String)
deriving DecidableEq, Repr

/-- An HTTP request issued by a resolver (method and URL). -/
structure Request where
  method : String
  url : String
deriving DecidableEq, Repr

/-! ### JSON values (the fragment `json.loads` can hand to this plugin) -/

/-- JSON values as used by the package resolver; `null` also stands for
Python `None` (the default of `dict.get`). -/
inductive Json where
  | obj (fields : List (String × Json))
  | str (s : String)
  | null

/-- Model of Python `payload.get(key, default)`: attribute lookup succeeds
only on a dict, otherwise `AttributeError` is raised. -/
def pyDictGet (j : Json) (key : String) (deflt : Json) : Except PyExc Json :=
  match j with
  | Json.obj fields => Except.ok ((fields.lookup key).getD deflt)
  | _ => Except.error (PyExc.attributeError "get")

/-- Model of `_trim(value)` where `value` is a JSON value: `(value or "")`
followed by `.strip()`; a non-empty dict has no `.strip` attribute. -/
def trimJson : Json → Except PyExc String
  | Json.null => Except.ok ""
  | Json.str s => Except.ok (pyStrip s)
  | Json.obj fields =>
    if fields.isEmpty then Except.ok ""
    else Except.error (PyExc.attributeError "strip")

/-! ### `AIPscanResolver` -/

namespace AIPscanResolver

/-- Model of `AIPscanResolver._fetch_json(url)`. The first `try` block
catches only `urllib.error.HTTPError` / `urllib.error.URLError`; a
`UnicodeDecodeError` raised by `.decode("utf-8")` is NOT caught there and
propagates as itself. The second `try` wraps `json.loads` failures.
`jsonLoads` is the abstract behaviour of the standard-library
`json.loads` on the decoded body (error = the `ValueError` message). -/
def fetchJson (fetch : String → FetchOutcome)
    (jsonLoads : String → Except String Json) (url : String) : Except PyExc Json :=
  match fetch url with
  | FetchOutcome.httpError code _ =>
    Except.error (PyExc.resolutionError ("HTTP " ++ toString code ++ " retrieving " ++ url))
  | FetchOutcome.urlError m =>
    Except.error (PyExc.resolutionError ("Unable to retrieve JSON from " ++ url ++ ": " ++ m))
  | FetchOutcome.ok (PyBytes.invalid d) =>
    Except.error (PyExc.unicodeDecodeError d)
  | FetchOutcome.ok (PyBytes.utf8 body) =>
    match jsonLoads body with
    | Except.error m =>
      Except.error (PyExc.resolutionError ("Failed to parse JSON from " ++ url ++ ": " ++ m))
    | Except.ok payload => Except.ok payload

/-- The discovery arm of `AIPscanResolver.resolve` (the code after the
override check): fetch PyPI metadata, extract and trim
`payload.get("info", {}).get("version")`, reject an empty result.
The second component lists the HTTP requests issued. -/
def discover (fetch : String → FetchOutcome)
    (jsonLoads : String → Except String Json) : Except PyExc String × List Request :=
  let outcome : Except PyExc String :=
    match fetchJson fetch jsonLoads PYPI_AIPSCAN_METADATA_URL with
    | Except.error e => Except.error e
    | Except.ok payload =>
      match pyDictGet payload "info" (Json.obj []) with
      | Except.error e => Except.error e
      | Except.ok info =>
        match pyDictGet info "version" Json.null with
        | Except.error e => Except.error e
        | Except.ok vjson =>
          match trimJson vjson with
          | Except.error e => Except.error e
          | Except.ok version =>
            if version = "" then
              Except.error (PyExc.resolutionError
                "PyPI metadata for AIPscan did not include a version field.")
            else Except.ok version
  (outcome, [⟨"GET", PYPI_AIPSCAN_METADATA_URL⟩])

/-- Model of `AIPscanResolver.resolve()`; `explicit` is the constructor's
`explicit_value` (`None` modelled as `Option.none`). -/
def resolve (fetch : String → FetchOutcome)
    (jsonLoads : String → Except String Json) (explicit : Option String) :
    Except PyExc String × List Request :=
  let trimmed := pyTrimOpt explicit
  if trimmed ≠ "" then (Except.ok trimmed, [])
  else discover fetch jsonLoads

end AIPscanResolver

/-! ### `UvResolver` -/

namespace UvResolver

/-- Model of `re.search(r"/tag/([^/?#]+)", location)`: scan for the
leftmost position where the literal `/tag/` is followed by at least one
character outside `/?#`; the captured group is the maximal such run. -/
def findTagGroup : List Char → Option (List Char)
  | '/' :: 't' :: 'a' :: 'g' :: '/' :: after =>
    let grp := after.takeWhile (fun ch => ch ≠ '/' && ch ≠ '?' && ch ≠ '#')
    if grp.isEmpty then findTagGroup ('t' :: 'a' :: 'g' :: '/' :: after)
    else some grp
  | _ :: rest => findTagGroup rest
  | [] => Option.none

/-- Model of `UvResolver._extract_uv_version_from_location(location)`:
the regex group, then `tag.split("?")[0]`, then `_trim`. Returns `""`
when the regex does not match. -/
def extractUvVersionFromLocation (location : String) : String :=
  match findTagGroup location.data with
  | Option.none => ""
  | some tag => pyStrip (String.mk (tag.takeWhile (fun c => c ≠ '?')))

/-- ASCII lowercasing (reduces in the kernel, unlike `String.toLower`). -/
def lowerStr (s : String) : String :=
  String.mk (s.data.map (fun c =>
    if 65 ≤ c.toNat ∧ c.toNat ≤ 90 then Char.ofNat (c.toNat + 32) else c))

/-- Model of the email-message header lookup `exc.headers.get("Location")`
(header names compare case-insensitively). -/
def headersGet (headers : List (String × String)) (name : String) : Option String :=
  (headers.find? (fun kv => lowerStr kv.fst = lowerStr name)).map (fun kv => kv.snd)

/-- The redirect status codes recognised by `UvResolver.resolve`. -/
def redirectCodes : List Nat := [301, 302, 303, 307, 308]

/-- The discovery arm of `UvResolver.resolve`: issue the HEAD request with
redirect suppression and interpret its outcome. -/
def discover (head : HeadOutcome) : Except PyExc String × List Request :=
  let outcome : Except PyExc String :=
    match head with
    | HeadOutcome.ok =>
      Except.error (PyExc.resolutionError
        "Expected GitHub to redirect for the latest uv release, but the request completed without a redirect.")
    | HeadOutcome.httpError code headers =>
      if code ∈ redirectCodes then
        let location := (headersGet headers "Location").getD ""
        if location = "" then
          Except.error (PyExc.resolutionError
            "GitHub redirected for the latest uv release but did not provide a Location header.")
        else
          let version := extractUvVersionFromLocation location
          if version = "" then
            Except.error (PyExc.resolutionError
              "Failed to extract the uv release version from redirect Location header.")
          else Except.ok version
      else
        Except.error (PyExc.resolutionError
          ("Unexpected response retrieving latest uv release: HTTP " ++ toString code))
    | HeadOutcome.urlError m =>
      Except.error (PyExc.resolutionError ("Unable to discover the latest uv release: " ++ m))
  (outcome, [⟨"HEAD", UV_LATEST_RELEASE_URL⟩])

/-- Model of `UvResolver.resolve()`; `head` is the outcome of the single
`http_client.head` call made on the discovery path. -/
def resolve (head : HeadOutcome) (explicit : Option String) :
    Except PyExc String × List Request :=
  let trimmed := pyTrimOpt explicit
  if trimmed ≠ "" then (Except.ok trimmed, [])
  else discover head

end UvResolver

/-! ### `PythonResolver` -/

namespace PythonResolver

/-- Model of `PythonResolver._fetch_text(url)`; like `_fetch_json`, the
`try` catches only the urllib error types, so a decode error propagates. -/
def fetchText (fetch : String → FetchOutcome) (url : String) : Except PyExc String :=
  match fetch url with
  | FetchOutcome.httpError code _ =>
    Except.error (PyExc.resolutionError ("HTTP " ++ toString code ++ " retrieving " ++ url))
  | FetchOutcome.urlError m =>
    Except.error (PyExc.resolutionError ("Unable to retrieve text from " ++ url ++ ": " ++ m))
  | FetchOutcome.ok (PyBytes.invalid d) => Except.error (PyExc.unicodeDecodeError d)
  | FetchOutcome.ok (PyBytes.utf8 s) => Except.ok s

/-- The discovery arm of `PythonResolver.resolve` (after the override
check): fail when the upstream version is unset, else fetch the templated
URL and return the trimmed body, rejecting an empty result. -/
def discover (fetch : String → FetchOutcome) (aipscanVersion : String) :
    Except PyExc String × List Request :=
  if aipscanVersion = "" then
    (Except.error (PyExc.resolutionError
      "Cannot determine Python version because the AIPscan version is unset."), [])
  else
    let sourceUrl := pythonVersionTemplateFormat aipscanVersion
    let outcome : Except PyExc String :=
      match fetchText fetch sourceUrl with
      | Except.error e => Except.error e
      | Except.ok content =>
        let version := pyStrip content
        if version = "" then
          Except.error (PyExc.resolutionError
            ("The .python-version file for AIPscan " ++ aipscanVersion
              ++ " was empty or whitespace-only."))
        else Except.ok version
    (outcome, [⟨"GET", sourceUrl⟩])

/-- Model of `PythonResolver.resolve(aipscan_version)`. -/
def resolve (fetch : String → FetchOutcome) (explicit : Option String)
    (aipscanVersion : String) : Except PyExc String × List Request :=
  let trimmed := pyTrimOpt explicit
  if trimmed ≠ "" then (Except.ok trimmed, [])
  else discover fetch aipscanVersion

end PythonResolver

/-! ### Orchestrator: `ActionModule.run` -/

/-- One resolver invocation observed during `ActionModule.run`
(`python` records the argument handed to `PythonResolver.resolve`). -/
inductive ResolverCall where
  | aipscan
  | uv
  | python (arg : String)
deriving DecidableEq, Repr

/-- The keys of the returned result dict that `ActionModule.run` touches;
`Option.none` means the key is absent. `ActionBase.run` returns a dict
without any of these keys, modelled by `baseResult`. -/
structure RunResult where
  changed : Option Bool
  failed : Option Bool
  msg : Option String
  ansible_facts : Option (List (String × String))
deriving DecidableEq, Repr

def baseResult : RunResult := ⟨Option.none, Option.none, Option.none, Option.none⟩

namespace ActionModule

/-- Model of `ActionModule.run`. The three resolver behaviours are passed
in (mirroring the injectable `resolver_factory`): `aipscanResolve` and
`uvResolve` are the outcomes of the two nullary `resolve()` calls and
`pythonResolve` maps the argument of `PythonResolver.resolve` to its
outcome. The `try` block catches only `ResolutionError`; any other
exception propagates (outer `Except.error`). The second component is the
sequence of resolver invocations actually made. -/
def run (aipscanResolve : Except PyExc String) (uvResolve : Except PyExc String)
    (pythonResolve : String → Except PyExc String) :
    Except PyExc RunResult × List ResolverCall :=
  match aipscanResolve with
  | Except.error (PyExc.resolutionError m) =>
    (Except.ok { baseResult with failed := some true, msg := some m }, [ResolverCall.aipscan])
  | Except.error e => (Except.error e, [ResolverCall.aipscan])
  | Except.ok aipscanVersion =>
    match uvResolve with
    | Except.error (PyExc.resolutionError m) =>
      (Except.ok { baseResult with failed := some true, msg := some m },
        [ResolverCall.aipscan, ResolverCall.uv])
    | Except.error e => (Except.error e, [ResolverCall.aipscan, ResolverCall.uv])
    | Except.ok uvVersion =>
      match pythonResolve aipscanVersion with
      | Except.error (PyExc.resolutionError m) =>
        (Except.ok { baseResult with failed := some true, msg := some m },
          [ResolverCall.aipscan, ResolverCall.uv, ResolverCall.python aipscanVersion])
      | Except.error e =>
        (Except.error e,
          [ResolverCall.aipscan, ResolverCall.uv, ResolverCall.python aipscanVersion])
      | Except.ok pythonVersion =>
        (Except.ok { baseResult with
            changed := some false,
            ansible_facts := some
              [("aipscan_version", aipscanVersion),
               ("aipscan_uv_version", uvVersion),
               ("aipscan_python_version", pythonVersion)] },
          [ResolverCall.aipscan, ResolverCall.uv, ResolverCall.python aipscanVersion])

/-! #### `ActionModule._normalize_timeout` -/

/-- A Python float: a finite value (modelled exactly as a rational) or
one of the non-finite values `inf`, `-inf`, `nan`, which `int()` cannot
convert to an integer. -/
inductive PyFloat where
  | finite (q : Rat)
  | inf
  | negInf
  | nan
deriving DecidableEq, Repr

/-- The Python values a `timeout` task parameter can hold in this model. -/
inductive TimeoutValue where
  | vNone
  | vInt (n : Int)
  | vFloat (f : PyFloat)
  | vStr (s : String)
deriving DecidableEq, Repr

/-- Outcome of Python `int(value)`: a converted integer, a `TypeError` or
`ValueError` (the two exception kinds `_normalize_timeout` catches), or
an `OverflowError` (raised by `int()` on an infinite float and caught by
nothing in `_normalize_timeout`). -/
inductive PyIntResult where
  | ok (n : Int)
  | typeOrValueError
  | overflowError
deriving DecidableEq, Repr

/-- Model of `int(f)` on a float: a finite float truncates toward zero,
`int(float('nan'))` raises `ValueError`, and `int()` of either infinity
raises `OverflowError`. -/
def pyFloatToInt : PyFloat → PyIntResult
  | PyFloat.finite q => PyIntResult.ok (if 0 ≤ q then ⌊q⌋ else ⌈q⌉)
  | PyFloat.inf => PyIntResult.overflowError
  | PyFloat.negInf => PyIntResult.overflowError
  | PyFloat.nan => PyIntResult.typeOrValueError

/-- Digits of a Python integer literal after the sign: ASCII digits with
single underscores allowed between digits. -/
def parseUDigitsGo : Nat → List Char → Option Nat
  | acc, [] => some acc
  | acc, '_' :: c :: rest =>
    if c.isDigit then parseUDigitsGo (acc * 10 + (c.toNat - 48)) rest else Option.none
  | acc, c :: rest =>
    if c.isDigit then parseUDigitsGo (acc * 10 + (c.toNat - 48)) rest else Option.none

def parseUDigits : List Char → Option Nat
  | [] => Option.none
  | c :: rest =>
    if c.isDigit then parseUDigitsGo (c.toNat - 48) rest else Option.none

/-- Model of Python `int(s)` on a string: strip whitespace, optional sign,
digit run (underscore separators allowed). -/
def pyIntOfStr (s : String) : Option Int :=
  match dropTrailing pyIsSpace (s.data.dropWhile pyIsSpace) with
  | '+' :: rest => (parseUDigits rest).map (fun n => (n : Int))
  | '-' :: rest => (parseUDigits rest).map (fun n => -(n : Int))
  | rest => (parseUDigits rest).map (fun n => (n : Int))

/-- Model of `int(value)` for the modelled input values: `None` raises
`TypeError`, an unconvertible string raises `ValueError`, floats behave
as `pyFloatToInt`. -/
def pyInt : TimeoutValue → PyIntResult
  | TimeoutValue.vNone => PyIntResult.typeOrValueError
  | TimeoutValue.vInt n => PyIntResult.ok n
  | TimeoutValue.vFloat f => pyFloatToInt f
  | TimeoutValue.vStr s =>
    match pyIntOfStr s with
    | some n => PyIntResult.ok n
    | Option.none => PyIntResult.typeOrValueError

/-- What a call of `_normalize_timeout` does: return an integer, or let
an uncaught exception (the `OverflowError` from `int()` on an infinite
float) propagate to the caller. -/
inductive TimeoutOutcome where
  | returns (n : Int)
  | raisesOverflowError
deriving DecidableEq, Repr

/-- Model of `ActionModule._normalize_timeout(value)`: the
`except (TypeError, ValueError)` clause turns exactly those two error
kinds into the default; an `OverflowError` is not caught and
propagates. -/
def normalize_timeout (value : TimeoutValue) : TimeoutOutcome :=
  match pyInt value with
  | PyIntResult.overflowError => TimeoutOutcome.raisesOverflowError
  | PyIntResult.typeOrValueError => TimeoutOutcome.returns DEFAULT_TIMEOUT
  | PyIntResult.ok timeout =>
    TimeoutOutcome.returns (if timeout ≤ 0 then DEFAULT_TIMEOUT else timeout)

end ActionModule

/-! ### `HttpClient` retry machinery -/

/-- The exceptions `call()` inside `_request_with_retry` can raise. -/
inductive NetErr where
  | httpError (code : Nat) (headers : List (String × String))
  | urlError (msg : String)
deriving DecidableEq, Repr

/-- The observable behaviour of one `_request_with_retry` run: the value
returned or exception re-raised, the number of `call()` invocations, and
the durations passed to `time.sleep` in order. -/
structure RetryRun (α : Type) where
  result : Except NetErr α
  attempts : Nat
  sleeps : List Rat

/-- Model of `HttpClient._sleep(attempt)`: no `time.sleep` call when
`backoff <= 0`, else one call of duration `backoff * (attempt + 1)`. -/
def sleepTrace (backoff : Rat) (attempt : Nat) : List Rat :=
  if backoff ≤ 0 then [] else [backoff * (attempt + 1)]

def prependSleep {α : Type} (backoff : Rat) (attempt : Nat) (rest : RetryRun α) :
    RetryRun α :=
  ⟨rest.result, rest.attempts, sleepTrace backoff attempt ++ rest.sleeps⟩

/-- The loop of `HttpClient._request_with_retry`, with `calls i` the
outcome of the `i`-th `call()` (0-based) and explicit fuel (the recursion
measure). Entered via `HttpClient.requestWithRetry` with
`fuel = retries`; since the loop leaves `retries - attempt` no smaller
than the remaining fuel, the `fuel = 0` arm (which stops with the current
call's outcome) is unreachable from the entry point whenever
`retries ≥ 1`, as the lemmas below establish. -/
def retryGo {α : Type} (retries : Nat) (backoff : Rat)
    (calls : Nat → Except NetErr α) : Nat → Nat → RetryRun α
  | attempt, 0 =>
    match calls attempt with
    | Except.ok a => ⟨Except.ok a, attempt + 1, []⟩
    | Except.error e => ⟨Except.error e, attempt + 1, []⟩
  | attempt, fuel + 1 =>
    match calls attempt with
    | Except.ok a => ⟨Except.ok a, attempt + 1, []⟩
    | Except.error (NetErr.httpError code headers) =>
      if code < 500 ∨ retries - 1 ≤ attempt then
        ⟨Except.error (NetErr.httpError code headers), attempt + 1, []⟩
      else
        prependSleep backoff attempt (retryGo retries backoff calls (attempt + 1) fuel)
    | Except.error (NetErr.urlError m) =>
      if retries - 1 ≤ attempt then
        ⟨Except.error (NetErr.urlError m), attempt + 1, []⟩
      else
        prependSleep backoff attempt (retryGo retries backoff calls (attempt + 1) fuel)

/-- State of an `HttpClient` after `__init__`. -/
structure HttpClient where
  retries : Nat
  backoff : Rat
deriving DecidableEq, Repr

/-- Model of `HttpClient.__init__(retries, backoff)`:
`self.retries = max(1, int(retries))`, `self.backoff = max(0.0, float(backoff))`. -/
def HttpClient.init (retries : Int) (backoff : Rat) : HttpClient :=
  ⟨(max 1 retries).toNat, max 0 backoff⟩

/-- Model of `HttpClient._request_with_retry(call)`: the loop entered with
`attempt = 0`. -/
def HttpClient.requestWithRetry {α : Type} (c : HttpClient)
    (calls : Nat → Except NetErr α) : RetryRun α :=
  retryGo c.retries c.backoff calls 0 c.retries

/-- An error is retried (rather than re-raised) while budget remains:
HTTP errors with status 500 or above, and all `URLError`s. -/
def retryableErr : NetErr → Bool
  | NetErr.httpError code _ => 500 ≤ code
  | NetErr.urlError _ => true

/-! ### Lemmas about `pyStrip` -/

lemma dropWhile_head_false {p : Char → Bool} :
    ∀ {l : List Char} {c : Char} {rest : List Char},
      l.dropWhile p = c :: rest → p c = false := by
  intro l
  induction l with
  | nil => intro c rest h; simp [List.dropWhile] at h
  | cons a l ih =>
    intro c rest h
    by_cases hp : p a
    · rw [List.dropWhile_cons_of_pos hp] at h
      exact ih h
    · rw [List.dropWhile_cons_of_neg hp] at h
      cases h
      simpa using hp

lemma dropWhile_of_head_false {p : Char → Bool} :
    ∀ {l : List Char}, (∀ (c : Char) (rest : List Char), l = c :: rest → p c = false) →
      l.dropWhile p = l := by
  intro l h
  cases l with
  | nil => simp [List.dropWhile]
  | cons a l =>
    have ha : p a = false := h a l rfl
    rw [List.dropWhile_cons_of_neg (by simp [ha])]

lemma dropWhile_idem {p : Char → Bool} (l : List Char) :
    (l.dropWhile p).dropWhile p = l.dropWhile p := by
  apply dropWhile_of_head_false
  intro c rest h
  exact dropWhile_head_false h

lemma length_dropWhile_le {p : Char → Bool} : ∀ l : List Char,
    (l.dropWhile p).length ≤ l.length := by
  intro l
  induction l with
  | nil => simp [List.dropWhile]
  | cons a l ih =>
    by_cases hp : p a
    · rw [List.dropWhile_cons_of_pos hp]
      exact le_trans ih (Nat.le_succ _)
    · rw [List.dropWhile_cons_of_neg hp]

lemma dropWhile_prefix_self {p : Char → Bool} :
    ∀ {a b : List Char}, (a ++ b).dropWhile p = a ++ b → a.dropWhile p = a := by
  intro a b h
  cases a with
  | nil => simp [List.dropWhile]
  | cons c a' =>
    by_cases hp : p c
    · exfalso
      rw [List.cons_append, List.dropWhile_cons_of_pos hp] at h
      have hlen : ((a' ++ b).dropWhile p).length ≤ (a' ++ b).length :=
        length_dropWhile_le _
      rw [h] at hlen
      simp at hlen
    · rw [List.dropWhile_cons_of_neg hp]

lemma dropTrailing_prefix {p : Char → Bool} (l : List Char) :
    ∃ t, dropTrailing p l ++ t = l := by
  obtain ⟨u, hu⟩ := List.dropWhile_suffix (l := l.reverse) p
  refine ⟨u.reverse, ?_⟩
  have := congrArg List.reverse hu
  simpa [dropTrailing, List.reverse_append] using this

lemma dropWhile_dropTrailing {p : Char → Bool} {l : List Char}
    (h : l.dropWhile p = l) : (dropTrailing p l).dropWhile p = dropTrailing p l := by
  obtain ⟨t, ht⟩ := dropTrailing_prefix (p := p) l
  exact dropWhile_prefix_self (ht ▸ h)

lemma dropTrailing_idem {p : Char → Bool} (l : List Char) :
    dropTrailing p (dropTrailing p l) = dropTrailing p l := by
  simp [dropTrailing, List.reverse_reverse, dropWhile_idem]

/-- Python `str.strip()` is idempotent; a stripped string is its own strip. -/
lemma pyStrip_idem (s : String) : pyStrip (pyStrip s) = pyStrip s := by
  show String.mk (dropTrailing pyIsSpace
      ((dropTrailing pyIsSpace (s.data.dropWhile pyIsSpace)).dropWhile pyIsSpace))
    = String.mk (dropTrailing pyIsSpace (s.data.dropWhile pyIsSpace))
  rw [dropWhile_dropTrailing (dropWhile_idem s.data), dropTrailing_idem]

/-! ### Lemmas about the retry loop -/

/-- General shape of one `_request_with_retry` run: at least one call is
made, at most `max (attempt+1) retries` in total, and the run either
returns the first successful call's value or re-raises the error of the
last call made. -/
lemma retryGo_spec {α : Type} (retries : Nat) (backoff : Rat)
    (calls : Nat → Except NetErr α) :
    ∀ (fuel attempt : Nat),
      attempt + 1 ≤ (retryGo retries backoff calls attempt fuel).attempts ∧
      (retryGo retries backoff calls attempt fuel).attempts ≤ max (attempt + 1) retries ∧
      ((∃ a, (retryGo retries backoff calls attempt fuel).result = Except.ok a ∧
          calls ((retryGo retries backoff calls attempt fuel).attempts - 1) = Except.ok a ∧
          ∀ i, attempt ≤ i → i < (retryGo retries backoff calls attempt fuel).attempts - 1 →
            ∃ e, calls i = Except.error e) ∨
       (∃ e, (retryGo retries backoff calls attempt fuel).result = Except.error e ∧
          calls ((retryGo retries backoff calls attempt fuel).attempts - 1) =
            Except.error e)) := by
  intro fuel
  induction fuel with
  | zero =>
    intro attempt
    rcases hc : calls attempt with e | a
    · have hrun : retryGo retries backoff calls attempt 0 =
          ⟨Except.error e, attempt + 1, []⟩ := by simp [retryGo, hc]
      rw [hrun]
      exact ⟨le_rfl, le_max_left _ _, Or.inr ⟨e, rfl, by simpa using hc⟩⟩
    · have hrun : retryGo retries backoff calls attempt 0 =
          ⟨Except.ok a, attempt + 1, []⟩ := by simp [retryGo, hc]
      rw [hrun]
      exact ⟨le_rfl, le_max_left _ _,
        Or.inl ⟨a, rfl, by simpa using hc, fun i hi hilt => by simp only [RetryRun.attempts] at hilt; omega⟩⟩
  | succ n ih =>
    intro attempt
    rcases hc : calls attempt with e | a
    · cases e with
      | httpError code headers =>
        by_cases hif : code < 500 ∨ retries - 1 ≤ attempt
        · have hrun : retryGo retries backoff calls attempt (n + 1) =
              ⟨Except.error (NetErr.httpError code headers), attempt + 1, []⟩ := by
            simp only [retryGo, hc]
            rw [if_pos hif]
          rw [hrun]
          exact ⟨le_rfl, le_max_left _ _, Or.inr ⟨_, rfl, by simpa using hc⟩⟩
        · have hrun : retryGo retries backoff calls attempt (n + 1) =
              prependSleep backoff attempt
                (retryGo retries backoff calls (attempt + 1) n) := by
            simp only [retryGo, hc]
            rw [if_neg hif]
          obtain ⟨h1, h2, h3⟩ := ih (attempt + 1)
          rw [hrun]
          simp only [prependSleep]
          refine ⟨by omega, by omega, ?_⟩
          rcases h3 with ⟨a, hr, hcall, hprev⟩ | ⟨e', hr, hcall⟩
          · refine Or.inl ⟨a, hr, hcall, fun i hi hilt => ?_⟩
            rcases Nat.eq_or_lt_of_le hi with rfl | hgt
            · exact ⟨_, hc⟩
            · exact hprev i hgt hilt
          · exact Or.inr ⟨e', hr, hcall⟩
      | urlError m =>
        by_cases hif : retries - 1 ≤ attempt
        · have hrun : retryGo retries backoff calls attempt (n + 1) =
              ⟨Except.error (NetErr.urlError m), attempt + 1, []⟩ := by
            simp only [retryGo, hc]
            rw [if_pos hif]
          rw [hrun]
          exact ⟨le_rfl, le_max_left _ _, Or.inr ⟨_, rfl, by simpa using hc⟩⟩
        · have hrun : retryGo retries backoff calls attempt (n + 1) =
              prependSleep backoff attempt
                (retryGo retries backoff calls (attempt + 1) n) := by
            simp only [retryGo, hc]
            rw [if_neg hif]
          obtain ⟨h1, h2, h3⟩ := ih (attempt + 1)
          rw [hrun]
          simp only [prependSleep]
          refine ⟨by omega, by omega, ?_⟩
          rcases h3 with ⟨a, hr, hcall, hprev⟩ | ⟨e', hr, hcall⟩
          · refine Or.inl ⟨a, hr, hcall, fun i hi hilt => ?_⟩
            rcases Nat.eq_or_lt_of_le hi with rfl | hgt
            · exact ⟨_, hc⟩
            · exact hprev i hgt hilt
          · exact Or.inr ⟨e', hr, hcall⟩
    · have hrun : retryGo retries backoff calls attempt (n + 1) =
          ⟨Except.ok a, attempt + 1, []⟩ := by simp [retryGo, hc]
      rw [hrun]
      exact ⟨le_rfl, le_max_left _ _,
        Or.inl ⟨a, rfl, by simpa using hc, fun i hi hilt => by simp only [RetryRun.attempts] at hilt; omega⟩⟩

/-- When every call in the budget fails retryably, the loop makes exactly
`retries` attempts, sleeps `backoff * i` before the `i`-th retry
(`i = attempt+1, ..., retries-1`), and re-raises the final error. -/
lemma retryGo_all_retryable {α : Type} (retries : Nat) (backoff : Rat)
    (calls : Nat → Except NetErr α) (hb : 0 < backoff)
    (hfail : ∀ i, i < retries → ∃ e, calls i = Except.error e ∧ retryableErr e = true) :
    ∀ (fuel attempt : Nat), attempt + fuel = retries → 0 < fuel →
      ∃ e, calls (retries - 1) = Except.error e ∧
        retryGo retries backoff calls attempt fuel =
          ⟨Except.error e, retries,
            (List.range' (attempt + 1) (retries - 1 - attempt)).map
              (fun i : Nat => backoff * (i : Rat))⟩ := by
  intro fuel
  induction fuel with
  | zero => omega
  | succ n ih =>
    intro attempt hsum _
    obtain ⟨e, hc, hretry⟩ := hfail attempt (by omega)
    by_cases hlast : attempt = retries - 1
    · have hc2 : calls (retries - 1) = Except.error e := by rw [← hlast]; exact hc
      refine ⟨e, hc2, ?_⟩
      have hrange : retries - 1 - attempt = 0 := by omega
      rw [hrange]
      have ha1 : attempt + 1 = retries := by omega
      cases e with
      | httpError code headers =>
        have hif : code < 500 ∨ retries - 1 ≤ attempt := Or.inr (by omega)
        simp only [retryGo, hc]
        rw [if_pos hif]
        simp [ha1]
      | urlError m =>
        have hif : retries - 1 ≤ attempt := by omega
        simp only [retryGo, hc]
        rw [if_pos hif]
        simp [ha1]
    · have hlt : attempt < retries - 1 := by omega
      obtain ⟨e', hc', heq⟩ := ih (attempt + 1) (by omega) (by omega)
      refine ⟨e', hc', ?_⟩
      have hstep : retries - 1 - attempt = (retries - 1 - (attempt + 1)) + 1 := by omega
      have hsleep : sleepTrace backoff attempt = [backoff * ((attempt : Rat) + 1)] := by
        simp [sleepTrace, not_le.mpr hb]
      have hlist : backoff * ((attempt : Rat) + 1) ::
          (List.range' (attempt + 1 + 1) (retries - 1 - (attempt + 1))).map
            (fun i : Nat => backoff * (i : Rat)) =
          (List.range' (attempt + 1) (retries - 1 - attempt)).map
            (fun i : Nat => backoff * (i : Rat)) := by
        rw [hstep, List.range'_succ, List.map_cons]
        congr 1
        push_cast
        ring
      cases e with
      | httpError code headers =>
        have hcode : 500 ≤ code := by simpa [retryableErr] using hretry
        have hif : ¬(code < 500 ∨ retries - 1 ≤ attempt) := by omega
        have hrun : retryGo retries backoff calls attempt (n + 1) =
            prependSleep backoff attempt
              (retryGo retries backoff calls (attempt + 1) n) := by
          simp only [retryGo, hc]
          rw [if_neg hif]
        rw [hrun, heq]
        simp only [prependSleep, hsleep]
        exact congrArg (RetryRun.mk (Except.error e') retries) (by simpa using hlist)
      | urlError m =>
        have hif : ¬(retries - 1 ≤ attempt) := by omega
        have hrun : retryGo retries backoff calls attempt (n + 1) =
            prependSleep backoff attempt
              (retryGo retries backoff calls (attempt + 1) n) := by
          simp only [retryGo, hc]
          rw [if_neg hif]
        rw [hrun, heq]
        simp only [prependSleep, hsleep]
        exact congrArg (RetryRun.mk (Except.error e') retries) (by simpa using hlist)

/-- When the calls before index `k` fail retryably and call `k` succeeds
(`k < retries`), the loop returns that success after `k + 1` attempts,
having slept `backoff * i` for `i = attempt+1, ..., k`. -/
lemma retryGo_fail_then_ok {α : Type} (retries : Nat) (backoff : Rat)
    (calls : Nat → Except NetErr α) (hb : 0 < backoff) (k : Nat) (a : α)
    (hk : k < retries) (hok : calls k = Except.ok a)
    (hfail : ∀ i, i < k → ∃ e, calls i = Except.error e ∧ retryableErr e = true) :
    ∀ (fuel attempt : Nat), attempt + fuel = retries → attempt ≤ k →
      retryGo retries backoff calls attempt fuel =
        ⟨Except.ok a, k + 1,
          (List.range' (attempt + 1) (k - attempt)).map
            (fun i : Nat => backoff * (i : Rat))⟩ := by
  intro fuel
  induction fuel with
  | zero =>
    intro attempt hsum hle
    have hak : attempt = k := by omega
    have hc : calls attempt = Except.ok a := by rw [hak]; exact hok
    have hz : k - attempt = 0 := by omega
    rw [hz]
    simp [retryGo, hak, hok]
  | succ n ih =>
    intro attempt hsum hle
    by_cases hak : attempt = k
    · have hc : calls attempt = Except.ok a := by rw [hak]; exact hok
      have hz : k - attempt = 0 := by omega
      rw [hz]
      simp [retryGo, hak, hok]
    · have hlt : attempt < k := by omega
      obtain ⟨e, hc, hretry⟩ := hfail attempt hlt
      have heq := ih (attempt + 1) (by omega) (by omega)
      have hstep : k - attempt = (k - (attempt + 1)) + 1 := by omega
      have hsleep : sleepTrace backoff attempt = [backoff * ((attempt : Rat) + 1)] := by
        simp [sleepTrace, not_le.mpr hb]
      have hlist : backoff * ((attempt : Rat) + 1) ::
          (List.range' (attempt + 1 + 1) (k - (attempt + 1))).map
            (fun i : Nat => backoff * (i : Rat)) =
          (List.range' (attempt + 1) (k - attempt)).map
            (fun i : Nat => backoff * (i : Rat)) := by
        rw [hstep, List.range'_succ, List.map_cons]
        congr 1
        push_cast
        ring
      cases e with
      | httpError code headers =>
        have hcode : 500 ≤ code := by simpa [retryableErr] using hretry
        have hif : ¬(code < 500 ∨ retries - 1 ≤ attempt) := by omega
        have hrun : retryGo retries backoff calls attempt (n + 1) =
            prependSleep backoff attempt
              (retryGo retries backoff calls (attempt + 1) n) := by
          simp only [retryGo, hc]
          rw [if_neg hif]
        rw [hrun, heq]
        simp only [prependSleep, hsleep]
        exact congrArg (RetryRun.mk (Except.ok a) (k + 1)) (by simpa using hlist)
      | urlError m =>
        have hif : ¬(retries - 1 ≤ attempt) := by omega
        have hrun : retryGo retries backoff calls attempt (n + 1) =
            prependSleep backoff attempt
              (retryGo retries backoff calls (attempt + 1) n) := by
          simp only [retryGo, hc]
          rw [if_neg hif]
        rw [hrun, heq]
        simp only [prependSleep, hsleep]
        exact congrArg (RetryRun.mk (Except.ok a) (k + 1)) (by simpa using hlist)

/-! ### Claim theorems -/

/-- C1: when all three resolvers succeed (`a`, `u`, and `p` for the
interpreter resolver applied to `a`), `ActionModule.run` returns
`changed = False`, no `failed`/`msg` keys, and exactly the three facts
`aipscan_version = a`, `aipscan_uv_version = u`,
`aipscan_python_version = p`; the resolvers run in the order package,
tool, interpreter, and the interpreter resolver receives the package
resolver's output `a`. -/
theorem run_success_publishes_three_facts
    (a u p : String) (pythonResolve : String → Except PyExc String)
    (hp : pythonResolve a = Except.ok p) :
    ActionModule.run (Except.ok a) (Except.ok u) pythonResolve =
      (Except.ok
        { changed := some false, failed := Option.none, msg := Option.none,
          ansible_facts := some
            [("aipscan_version", a), ("aipscan_uv_version", u),
             ("aipscan_python_version", p)] },
       [ResolverCall.aipscan, ResolverCall.uv, ResolverCall.python a]) := by
  simp [ActionModule.run, hp, baseResult]

theorem run_success_publishes_three_facts_witness :
    (fun _ => Except.ok "3.11.9" : String → Except PyExc String) "4.5.6"
        = Except.ok "3.11.9" ∧
    ActionModule.run (Except.ok "4.5.6") (Except.ok "0.5.11")
        (fun _ => Except.ok "3.11.9") =
      (Except.ok
        { changed := some false, failed := Option.none, msg := Option.none,
          ansible_facts := some
            [("aipscan_version", "4.5.6"), ("aipscan_uv_version", "0.5.11"),
             ("aipscan_python_version", "3.11.9")] },
       [ResolverCall.aipscan, ResolverCall.uv, ResolverCall.python "4.5.6"]) :=
  ⟨rfl, run_success_publishes_three_facts "4.5.6" "0.5.11" "3.11.9" _ rfl⟩

/-- C2: when some resolver raises `ResolutionError m`, `ActionModule.run`
aborts immediately (later resolvers are never invoked, witnessed by the
call trace and by the result being independent of their behaviour),
returns `failed = True` and `msg = m` verbatim, and publishes no
`ansible_facts`. -/
theorem run_failure_aborts_with_verbatim_msg (m : String) :
    (∀ uvR pr, ActionModule.run (Except.error (PyExc.resolutionError m)) uvR pr =
      (Except.ok { baseResult with failed := some true, msg := some m },
       [ResolverCall.aipscan])) ∧
    (∀ a pr, ActionModule.run (Except.ok a) (Except.error (PyExc.resolutionError m)) pr =
      (Except.ok { baseResult with failed := some true, msg := some m },
       [ResolverCall.aipscan, ResolverCall.uv])) ∧
    (∀ a u pr, pr a = Except.error (PyExc.resolutionError m) →
      ActionModule.run (Except.ok a) (Except.ok u) pr =
        (Except.ok { baseResult with failed := some true, msg := some m },
         [ResolverCall.aipscan, ResolverCall.uv, ResolverCall.python a])) := by
  refine ⟨fun uvR pr => ?_, fun a pr => ?_, fun a u pr hpr => ?_⟩
  · simp [ActionModule.run]
  · simp [ActionModule.run]
  · simp [ActionModule.run, hpr]

theorem run_failure_aborts_with_verbatim_msg_witness :
    ActionModule.run (Except.error (PyExc.resolutionError "Could not determine python version"))
        (Except.ok "0.5.11") (fun _ => Except.ok "3.11.9") =
      (Except.ok
        { baseResult with
            failed := some true, msg := some "Could not determine python version" },
       [ResolverCall.aipscan]) :=
  (run_failure_aborts_with_verbatim_msg "Could not determine python version").1
    (Except.ok "0.5.11") (fun _ => Except.ok "3.11.9")

/-- C3: each resolver takes its discovery procedure if and only if the
explicit override is absent, empty, or whitespace-only after trimming
(`pyTrimOpt explicit = ""`); a non-blank override is returned exactly as
its trimmed value with no HTTP request issued — for the interpreter
resolver for every `packageVersion`, including `""`. When the override is
blank, the package and tool resolvers' discovery each issue exactly one
network request; the interpreter resolver runs its discovery procedure
`PythonResolver.discover` (which, per the spec, first checks the upstream
version before fetching). -/
theorem resolvers_override_precedence
    (fetch : String → FetchOutcome) (jsonLoads : String → Except String Json)
    (head : HeadOutcome) (explicit : Option String) (pv : String) :
    (pyTrimOpt explicit ≠ "" →
      AIPscanResolver.resolve fetch jsonLoads explicit =
        (Except.ok (pyTrimOpt explicit), []) ∧
      UvResolver.resolve head explicit = (Except.ok (pyTrimOpt explicit), []) ∧
      PythonResolver.resolve fetch explicit pv = (Except.ok (pyTrimOpt explicit), [])) ∧
    (pyTrimOpt explicit = "" →
      AIPscanResolver.resolve fetch jsonLoads explicit =
        AIPscanResolver.discover fetch jsonLoads ∧
      (AIPscanResolver.resolve fetch jsonLoads explicit).2 =
        [⟨"GET", PYPI_AIPSCAN_METADATA_URL⟩] ∧
      UvResolver.resolve head explicit = UvResolver.discover head ∧
      (UvResolver.resolve head explicit).2 = [⟨"HEAD", UV_LATEST_RELEASE_URL⟩] ∧
      PythonResolver.resolve fetch explicit pv = PythonResolver.discover fetch pv) := by
  constructor
  · intro h
    refine ⟨?_, ?_, ?_⟩ <;>
      simp [AIPscanResolver.resolve, UvResolver.resolve, PythonResolver.resolve, h]
  · intro h
    refine ⟨?_, ?_, ?_, ?_, ?_⟩ <;>
      simp [AIPscanResolver.resolve, UvResolver.resolve, PythonResolver.resolve,
        AIPscanResolver.discover, UvResolver.discover, h]

theorem resolvers_override_precedence_witness :
    pyTrimOpt (some " 1.2.3 ") ≠ "" ∧
    AIPscanResolver.resolve (fun _ => FetchOutcome.urlError "no net")
        (fun _ => Except.error "no parse") (some " 1.2.3 ") =
      (Except.ok "1.2.3", []) ∧
    UvResolver.resolve HeadOutcome.ok (some " 1.2.3 ") = (Except.ok "1.2.3", []) ∧
    PythonResolver.resolve (fun _ => FetchOutcome.urlError "no net") (some " 1.2.3 ") "" =
      (Except.ok "1.2.3", []) := by
  have h : pyTrimOpt (some " 1.2.3 ") = "1.2.3" := by decide
  have hne : pyTrimOpt (some " 1.2.3 ") ≠ "" := by decide
  have := (resolvers_override_precedence (fun _ => FetchOutcome.urlError "no net")
    (fun _ => Except.error "no parse") HeadOutcome.ok (some " 1.2.3 ") "").1 hne
  exact ⟨hne, h ▸ this.1, h ▸ this.2.1, h ▸ this.2.2⟩

/-- C4 (code bug witness): in the package resolver's discovery path a
response body that fails UTF-8 decoding does NOT become a
`ResolutionError` naming the URL — the raw `UnicodeDecodeError`
propagates, because `.decode("utf-8")` sits in the `try` block that
catches only the urllib error types (the handler that catches
`UnicodeDecodeError` guards `json.loads`, which operates on an
already-decoded `str` and can never raise it). This theorem evaluates the
model at the failing input: no override, HTTP 200 with an undecodable
body. -/
theorem aipscan_decode_error_escapes_unwrapped :
    (AIPscanResolver.resolve (fun _ => FetchOutcome.ok (PyBytes.invalid "invalid start byte"))
        (fun _ => Except.error "unreachable") Option.none).1 =
      Except.error (PyExc.unicodeDecodeError "invalid start byte") ∧
    ∀ m, (AIPscanResolver.resolve (fun _ => FetchOutcome.ok (PyBytes.invalid "invalid start byte"))
        (fun _ => Except.error "unreachable") Option.none).1 ≠
      Except.error (PyExc.resolutionError m) := by
  have h0 : (AIPscanResolver.resolve
      (fun _ => FetchOutcome.ok (PyBytes.invalid "invalid start byte"))
      (fun _ => Except.error "unreachable") Option.none).1 =
      Except.error (PyExc.unicodeDecodeError "invalid start byte") := rfl
  refine ⟨h0, fun m h => ?_⟩
  rw [h0] at h
  simp at h

/-- C5: with no usable override, the tool resolver maps each HEAD outcome
as the code does: a redirect status in {301, 302, 303, 307, 308} returns
`extractUvVersionFromLocation` of the `Location` header (the first
`/tag/<value>` segment, query string stripped, trimmed) when that value
is non-empty; it raises `ResolutionError` when the redirect has no (or an
empty) `Location` header, when no `/tag/` value can be extracted, on a
non-redirect HTTP error status, on a network-level failure, and when the
request completes without any redirect. -/
theorem uv_resolver_discovery_behaviour (explicit : Option String)
    (hblank : pyTrimOpt explicit = "") :
    (∀ code headers, code ∈ UvResolver.redirectCodes →
      ((UvResolver.headersGet headers "Location").getD "" = "" →
        (UvResolver.resolve (HeadOutcome.httpError code headers) explicit).1 =
          Except.error (PyExc.resolutionError
            "GitHub redirected for the latest uv release but did not provide a Location header.")) ∧
      (∀ loc, UvResolver.headersGet headers "Location" = some loc → loc ≠ "" →
        (UvResolver.extractUvVersionFromLocation loc ≠ "" →
          (UvResolver.resolve (HeadOutcome.httpError code headers) explicit).1 =
            Except.ok (UvResolver.extractUvVersionFromLocation loc)) ∧
        (UvResolver.extractUvVersionFromLocation loc = "" →
          (UvResolver.resolve (HeadOutcome.httpError code headers) explicit).1 =
            Except.error (PyExc.resolutionError
              "Failed to extract the uv release version from redirect Location header.")))) ∧
    (∀ code headers, code ∉ UvResolver.redirectCodes →
      (UvResolver.resolve (HeadOutcome.httpError code headers) explicit).1 =
        Except.error (PyExc.resolutionError
          ("Unexpected response retrieving latest uv release: HTTP " ++ toString code))) ∧
    (∀ m, (UvResolver.resolve (HeadOutcome.urlError m) explicit).1 =
      Except.error (PyExc.resolutionError ("Unable to discover the latest uv release: " ++ m))) ∧
    ((UvResolver.resolve HeadOutcome.ok explicit).1 =
      Except.error (PyExc.resolutionError
        "Expected GitHub to redirect for the latest uv release, but the request completed without a redirect.")) := by
  refine ⟨fun code headers hcode => ⟨fun hnoloc => ?_, fun loc hloc hne => ⟨fun hv => ?_, fun hv => ?_⟩⟩,
    fun code headers hcode => ?_, fun m => ?_, ?_⟩ <;>
    simp_all [UvResolver.resolve, UvResolver.discover, hblank]

theorem uv_resolver_discovery_behaviour_witness :
    pyTrimOpt (some "  ") = "" ∧
    (UvResolver.resolve (HeadOutcome.httpError 302
        [("Location", "https://github.com/astral-sh/uv/releases/tag/0.5.11")]) (some "  ")).1 =
      Except.ok "0.5.11" ∧
    (UvResolver.resolve (HeadOutcome.httpError 404 []) (some "  ")).1 =
      Except.error (PyExc.resolutionError
        "Unexpected response retrieving latest uv release: HTTP 404") ∧
    (UvResolver.resolve HeadOutcome.ok (some "  ")).1 =
      Except.error (PyExc.resolutionError
        "Expected GitHub to redirect for the latest uv release, but the request completed without a redirect.") := by
  have hblank : pyTrimOpt (some "  ") = "" := by decide
  have h := uv_resolver_discovery_behaviour (some "  ") hblank
  refine ⟨hblank, ?_, ?_, h.2.2.2⟩
  · have hv : UvResolver.extractUvVersionFromLocation
        "https://github.com/astral-sh/uv/releases/tag/0.5.11" = "0.5.11" := by decide
    have := ((h.1 302 [("Location", "https://github.com/astral-sh/uv/releases/tag/0.5.11")]
      (by decide)).2 "https://github.com/astral-sh/uv/releases/tag/0.5.11" rfl
      (by decide)).1 (by decide)
    rw [hv] at this
    exact this
  · exact h.2.1 404 [] (by decide)

/-- C7: with no usable override, the interpreter resolver fails
immediately and without any network request when `packageVersion` is
empty; otherwise it issues exactly one GET of the templated URL (ending
in `<packageVersion>/.python-version`), returns the trimmed response
body, and raises `ResolutionError` when the trimmed body is empty. -/
theorem python_resolver_discovery_behaviour (fetch : String → FetchOutcome)
    (explicit : Option String) (hblank : pyTrimOpt explicit = "") :
    (PythonResolver.resolve fetch explicit "" =
      (Except.error (PyExc.resolutionError
        "Cannot determine Python version because the AIPscan version is unset."), [])) ∧
    (∀ pv, pv ≠ "" →
      (PythonResolver.resolve fetch explicit pv).2 =
        [⟨"GET", pythonVersionTemplateFormat pv⟩] ∧
      (∀ body, fetch (pythonVersionTemplateFormat pv) = FetchOutcome.ok (PyBytes.utf8 body) →
        (pyStrip body ≠ "" →
          (PythonResolver.resolve fetch explicit pv).1 = Except.ok (pyStrip body)) ∧
        (pyStrip body = "" →
          (PythonResolver.resolve fetch explicit pv).1 =
            Except.error (PyExc.resolutionError
              ("The .python-version file for AIPscan " ++ pv
                ++ " was empty or whitespace-only."))))) := by
  refine ⟨?_, fun pv hpv => ⟨?_, fun body hbody => ⟨fun hne => ?_, fun he => ?_⟩⟩⟩ <;>
    simp_all [PythonResolver.resolve, PythonResolver.discover, PythonResolver.fetchText, hblank]

theorem python_resolver_discovery_behaviour_witness :
    pyTrimOpt Option.none = "" ∧
    (PythonResolver.resolve (fun _ => FetchOutcome.ok (PyBytes.utf8 "3.11.9\n"))
        Option.none "").2 = [] ∧
    (PythonResolver.resolve (fun _ => FetchOutcome.ok (PyBytes.utf8 "3.11.9\n"))
        Option.none "1.2.3").2 =
      [⟨"GET", "https://raw.githubusercontent.com/artefactual-labs/AIPscan/refs/tags/1.2.3/.python-version"⟩] ∧
    (PythonResolver.resolve (fun _ => FetchOutcome.ok (PyBytes.utf8 "3.11.9\n"))
        Option.none "1.2.3").1 = Except.ok "3.11.9" := by
  have hblank : pyTrimOpt Option.none = "" := by decide
  have h := python_resolver_discovery_behaviour
    (fun _ => FetchOutcome.ok (PyBytes.utf8 "3.11.9\n")) Option.none hblank
  have h12 := h.2 "1.2.3" (by decide)
  have hbody := (h12.2 "3.11.9\n" rfl).1 (by decide)
  have hs : pyStrip "3.11.9\n" = "3.11.9" := by decide
  refine ⟨hblank, ?_, ?_, ?_⟩
  · rw [h.1]
  · simpa [pythonVersionTemplateFormat] using h12.1
  · rw [hbody, hs]

/-- C6: `_request_with_retry` raises an HTTP error with status < 500
immediately after a single attempt with no sleeps; for HTTP errors with
status ≥ 500 and for URL errors it retries up to `retries - 1` additional
times, sleeping `backoff * i` (attempt index `i` starting at 1) before
each retry, and after exhausting the budget re-raises the final error
unchanged; an intermediate success after `k` retryable failures is
returned at attempt `k + 1`. -/
theorem request_with_retry_policy {α : Type} (retries : Nat) (backoff : Rat)
    (calls : Nat → Except NetErr α) (hr : 1 ≤ retries) (hb : 0 < backoff) :
    (∀ code headers, calls 0 = Except.error (NetErr.httpError code headers) → code < 500 →
      HttpClient.requestWithRetry ⟨retries, backoff⟩ calls =
        ⟨Except.error (NetErr.httpError code headers), 1, []⟩) ∧
    ((∀ i, i < retries → ∃ e, calls i = Except.error e ∧ retryableErr e = true) →
      ∃ e, calls (retries - 1) = Except.error e ∧
        HttpClient.requestWithRetry ⟨retries, backoff⟩ calls =
          ⟨Except.error e, retries,
            (List.range' 1 (retries - 1)).map (fun i : Nat => backoff * (i : Rat))⟩) ∧
    (∀ k a, k < retries → calls k = Except.ok a →
      (∀ i, i < k → ∃ e, calls i = Except.error e ∧ retryableErr e = true) →
      HttpClient.requestWithRetry ⟨retries, backoff⟩ calls =
        ⟨Except.ok a, k + 1,
          (List.range' 1 k).map (fun i : Nat => backoff * (i : Rat))⟩) := by
  refine ⟨fun code headers hc hcode => ?_, fun hfail => ?_, fun k a hk hok hfail => ?_⟩
  · obtain ⟨n, rfl⟩ : ∃ n, retries = n + 1 := ⟨retries - 1, by omega⟩
    have hif : code < 500 ∨ n + 1 - 1 ≤ 0 := Or.inl hcode
    show retryGo (n + 1) backoff calls 0 (n + 1) = _
    simp only [retryGo, hc]
    rw [if_pos hif]
  · obtain ⟨e, hc, heq⟩ := retryGo_all_retryable retries backoff calls hb hfail retries 0
      (by omega) (by omega)
    exact ⟨e, hc, by simpa [HttpClient.requestWithRetry] using heq⟩
  · have heq := retryGo_fail_then_ok retries backoff calls hb k a hk hok hfail retries 0
      (by omega) (by omega)
    simpa [HttpClient.requestWithRetry] using heq

theorem request_with_retry_policy_witness :
    HttpClient.requestWithRetry ⟨3, 1/2⟩
        (fun _ => (Except.error (NetErr.urlError "service down") : Except NetErr Unit)) =
      ⟨Except.error (NetErr.urlError "service down"), 3, [1/2, 1]⟩ ∧
    HttpClient.requestWithRetry ⟨3, 1/2⟩
        (fun _ => (Except.error (NetErr.httpError 404 []) : Except NetErr Unit)) =
      ⟨Except.error (NetErr.httpError 404 []), 1, []⟩ := by
  constructor
  · obtain ⟨e, he, hrun⟩ := (request_with_retry_policy 3 (1/2)
        (fun _ => (Except.error (NetErr.urlError "service down") : Except NetErr Unit))
        (by norm_num) (by norm_num)).2.1
      (fun i hi => ⟨NetErr.urlError "service down", rfl, rfl⟩)
    injection he with h
    rw [← h] at hrun
    have hlist : (List.range' 1 (3 - 1)).map (fun i : Nat => ((1 : Rat)/2) * (i : Rat)) =
        [1/2, 1] := by
      norm_num [List.range']
    rw [hlist] at hrun
    exact hrun
  · exact (request_with_retry_policy 3 (1/2)
      (fun _ => (Except.error (NetErr.httpError 404 []) : Except NetErr Unit))
      (by norm_num) (by norm_num)).1 404 [] rfl (by norm_num)

/-- C10: `HttpClient.__init__` clamps the retry count to at least 1 and
the backoff to at least 0, so `_request_with_retry` always terminates
after between 1 and `max(1, int(retries))` call attempts, either
returning the first successful response (all earlier attempts having
failed) or raising the error of the last attempt made. -/
theorem http_client_clamps_and_terminates {α : Type} (retriesIn : Int) (backoffIn : Rat)
    (calls : Nat → Except NetErr α) :
    1 ≤ (HttpClient.init retriesIn backoffIn).retries ∧
    0 ≤ (HttpClient.init retriesIn backoffIn).backoff ∧
    (HttpClient.init retriesIn backoffIn).retries = (max 1 retriesIn).toNat ∧
    1 ≤ ((HttpClient.init retriesIn backoffIn).requestWithRetry calls).attempts ∧
    ((HttpClient.init retriesIn backoffIn).requestWithRetry calls).attempts ≤
      (max 1 retriesIn).toNat ∧
    ((∃ a, ((HttpClient.init retriesIn backoffIn).requestWithRetry calls).result =
          Except.ok a ∧
        calls (((HttpClient.init retriesIn backoffIn).requestWithRetry calls).attempts - 1) =
          Except.ok a ∧
        ∀ i, i < ((HttpClient.init retriesIn backoffIn).requestWithRetry calls).attempts - 1 →
          ∃ e, calls i = Except.error e) ∨
     (∃ e, ((HttpClient.init retriesIn backoffIn).requestWithRetry calls).result =
          Except.error e ∧
        calls (((HttpClient.init retriesIn backoffIn).requestWithRetry calls).attempts - 1) =
          Except.error e)) := by
  have hret : (HttpClient.init retriesIn backoffIn).retries = (max 1 retriesIn).toNat := rfl
  have hr1 : 1 ≤ (max 1 retriesIn).toNat := by omega
  obtain ⟨h1, h2, h3⟩ := retryGo_spec (HttpClient.init retriesIn backoffIn).retries
    (HttpClient.init retriesIn backoffIn).backoff calls
    (HttpClient.init retriesIn backoffIn).retries 0
  have hreq : (HttpClient.init retriesIn backoffIn).requestWithRetry calls =
      retryGo (HttpClient.init retriesIn backoffIn).retries
        (HttpClient.init retriesIn backoffIn).backoff calls 0
        (HttpClient.init retriesIn backoffIn).retries := rfl
  rw [hret] at h1 h2 h3 hreq
  refine ⟨by rw [hret]; omega, le_max_left _ _, hret, ?_, ?_, ?_⟩
  · rw [hreq]; omega
  · rw [hreq]; omega
  · rw [hreq]
    rcases h3 with ⟨a, hr', hcall, hprev⟩ | ⟨e, hr', hcall⟩
    · exact Or.inl ⟨a, hr', hcall, fun i hi => hprev i (Nat.zero_le i) hi⟩
    · exact Or.inr ⟨e, hr', hcall⟩

theorem http_client_clamps_and_terminates_witness :
    (HttpClient.init (-2) (-1)).retries = 1 ∧ (HttpClient.init (-2) (-1)).backoff = 0 ∧
    ((HttpClient.init (-2) (-1)).requestWithRetry
        (fun _ => (Except.ok () : Except NetErr Unit))).attempts = 1 := by
  have h := http_client_clamps_and_terminates (-2) (-1)
    (fun _ => (Except.ok () : Except NetErr Unit))
  have h4 := h.2.2.2.1
  have h5 := h.2.2.2.2.1
  refine ⟨rfl, by norm_num [HttpClient.init], by omega⟩

/-- C8 (counterexample to the claim as stated): at an infinite float —
reachable through the task's `timeout` parameter as YAML `.inf` — the
`int()` conversion inside `_normalize_timeout` raises `OverflowError`,
which `except (TypeError, ValueError)` does not catch, so the call
raises instead of returning; in particular it does not return a positive
integer (nor the default) for this input. -/
theorem normalize_timeout_overflow_counterexample :
    ActionModule.normalize_timeout
        (ActionModule.TimeoutValue.vFloat ActionModule.PyFloat.inf) =
      ActionModule.TimeoutOutcome.raisesOverflowError ∧
    ActionModule.normalize_timeout
        (ActionModule.TimeoutValue.vFloat ActionModule.PyFloat.inf) ≠
      ActionModule.TimeoutOutcome.returns DEFAULT_TIMEOUT :=
  ⟨rfl, by decide⟩

/-- C8 (amended): whenever `int(value)` succeeds or raises
`TypeError`/`ValueError`, `_normalize_timeout` returns a positive
integer — the fixed default (15 seconds) when the input is absent,
unconvertible (including NaN, whose `int()` raises `ValueError`), or
converts to a value ≤ 0, and the converted integer otherwise; every
integer it returns is positive. The sole exception: an infinite float
makes `int()` raise `OverflowError`, which propagates out of
`_normalize_timeout` instead of producing a value. -/
theorem normalize_timeout_positive_and_defaults (v : ActionModule.TimeoutValue) :
    (∀ n, ActionModule.normalize_timeout v = ActionModule.TimeoutOutcome.returns n →
      0 < n) ∧
    (ActionModule.pyInt v = ActionModule.PyIntResult.typeOrValueError →
      ActionModule.normalize_timeout v =
        ActionModule.TimeoutOutcome.returns DEFAULT_TIMEOUT) ∧
    (∀ n, ActionModule.pyInt v = ActionModule.PyIntResult.ok n → n ≤ 0 →
      ActionModule.normalize_timeout v =
        ActionModule.TimeoutOutcome.returns DEFAULT_TIMEOUT) ∧
    (∀ n, ActionModule.pyInt v = ActionModule.PyIntResult.ok n → 0 < n →
      ActionModule.normalize_timeout v = ActionModule.TimeoutOutcome.returns n) ∧
    (ActionModule.pyInt v = ActionModule.PyIntResult.overflowError →
      ActionModule.normalize_timeout v =
        ActionModule.TimeoutOutcome.raisesOverflowError) ∧
    DEFAULT_TIMEOUT = 15 := by
  have hdef : DEFAULT_TIMEOUT = 15 := rfl
  cases h : ActionModule.pyInt v with
  | ok n =>
    have he : ActionModule.normalize_timeout v =
        ActionModule.TimeoutOutcome.returns (if n ≤ 0 then DEFAULT_TIMEOUT else n) := by
      simp [ActionModule.normalize_timeout, h]
    refine ⟨fun m hm => ?_, fun hc => ActionModule.PyIntResult.noConfusion hc,
      fun m hm hle => ?_, fun m hm hpos => ?_,
      fun hc => ActionModule.PyIntResult.noConfusion hc, hdef⟩
    · rw [he] at hm
      injection hm with hmm
      rw [← hmm]
      by_cases hn : n ≤ 0
      · rw [if_pos hn, hdef]
        norm_num
      · rw [if_neg hn]
        omega
    · injection hm with hmm
      rw [he, hmm, if_pos hle]
    · injection hm with hmm
      rw [he, hmm, if_neg (by omega)]
  | typeOrValueError =>
    have he : ActionModule.normalize_timeout v =
        ActionModule.TimeoutOutcome.returns DEFAULT_TIMEOUT := by
      simp [ActionModule.normalize_timeout, h]
    refine ⟨fun m hm => ?_, fun _ => he,
      fun m hm => ActionModule.PyIntResult.noConfusion hm,
      fun m hm => ActionModule.PyIntResult.noConfusion hm,
      fun hc => ActionModule.PyIntResult.noConfusion hc, hdef⟩
    rw [he] at hm
    injection hm with hmm
    rw [← hmm, hdef]
    norm_num
  | overflowError =>
    have he : ActionModule.normalize_timeout v =
        ActionModule.TimeoutOutcome.raisesOverflowError := by
      simp [ActionModule.normalize_timeout, h]
    refine ⟨fun m hm => ?_, fun hc => ActionModule.PyIntResult.noConfusion hc,
      fun m hm => ActionModule.PyIntResult.noConfusion hm,
      fun m hm => ActionModule.PyIntResult.noConfusion hm, fun _ => he, hdef⟩
    rw [he] at hm
    exact absurd hm (by simp)

theorem normalize_timeout_positive_and_defaults_witness :
    ActionModule.normalize_timeout (ActionModule.TimeoutValue.vStr "abc") =
      ActionModule.TimeoutOutcome.returns DEFAULT_TIMEOUT ∧
    ActionModule.normalize_timeout (ActionModule.TimeoutValue.vInt (-3)) =
      ActionModule.TimeoutOutcome.returns DEFAULT_TIMEOUT ∧
    ActionModule.normalize_timeout (ActionModule.TimeoutValue.vInt 20) =
      ActionModule.TimeoutOutcome.returns 20 ∧
    ActionModule.normalize_timeout
        (ActionModule.TimeoutValue.vFloat ActionModule.PyFloat.nan) =
      ActionModule.TimeoutOutcome.returns DEFAULT_TIMEOUT :=
  ⟨(normalize_timeout_positive_and_defaults (ActionModule.TimeoutValue.vStr "abc")).2.1
     (by decide),
   (normalize_timeout_positive_and_defaults (ActionModule.TimeoutValue.vInt (-3))).2.2.1
     (-3) rfl (by norm_num),
   (normalize_timeout_positive_and_defaults (ActionModule.TimeoutValue.vInt 20)).2.2.2.1
     20 rfl (by norm_num),
   (normalize_timeout_positive_and_defaults
       (ActionModule.TimeoutValue.vFloat ActionModule.PyFloat.nan)).2.1 rfl⟩

/-! ### Helper lemmas for the trimmed-value invariant -/

lemma pyStrip_empty : pyStrip "" = "" := by decide

lemma pyTrimOpt_stripped (o : Option String) : pyStrip (pyTrimOpt o) = pyTrimOpt o :=
  pyStrip_idem _

lemma trimJson_stripped {j : Json} {s : String} (h : trimJson j = Except.ok s) :
    pyStrip s = s := by
  cases j with
  | null =>
    have hs : "" = s := by simpa [trimJson] using h
    rw [← hs]
    exact pyStrip_empty
  | str t =>
    have hs : pyStrip t = s := by simpa [trimJson] using h
    rw [← hs]
    exact pyStrip_idem t
  | obj fields =>
    by_cases hf : fields.isEmpty
    · have hs : "" = s := by simpa [trimJson, hf] using h
      rw [← hs]
      exact pyStrip_empty
    · simp [trimJson, hf] at h

lemma extract_stripped (loc : String) :
    pyStrip (UvResolver.extractUvVersionFromLocation loc) =
      UvResolver.extractUvVersionFromLocation loc := by
  cases h : UvResolver.findTagGroup loc.data with
  | none => simp [UvResolver.extractUvVersionFromLocation, h, pyStrip_empty]
  | some tag => simp [UvResolver.extractUvVersionFromLocation, h, pyStrip_idem]

lemma aipscan_discover_ok {fetch : String → FetchOutcome}
    {jsonLoads : String → Except String Json} {v : String}
    (h : (AIPscanResolver.discover fetch jsonLoads).1 = Except.ok v) :
    v ≠ "" ∧ pyStrip v = v := by
  simp only [AIPscanResolver.discover] at h
  rcases hf : AIPscanResolver.fetchJson fetch jsonLoads PYPI_AIPSCAN_METADATA_URL
    with e | payload
  · simp only [hf] at h
    exact absurd h (by simp)
  · simp only [hf] at h
    rcases hi : pyDictGet payload "info" (Json.obj []) with e | info
    · simp only [hi] at h
      exact absurd h (by simp)
    · simp only [hi] at h
      rcases hv : pyDictGet info "version" Json.null with e | vjson
      · simp only [hv] at h
        exact absurd h (by simp)
      · simp only [hv] at h
        rcases ht : trimJson vjson with e | version
        · simp only [ht] at h
          exact absurd h (by simp)
        · simp only [ht] at h
          by_cases he : version = ""
          · rw [if_pos he] at h
            exact absurd h (by simp)
          · rw [if_neg he] at h
            have hveq : version = v := by simpa using h
            subst hveq
            exact ⟨he, trimJson_stripped ht⟩

lemma uv_discover_ok {head : HeadOutcome} {v : String}
    (h : (UvResolver.discover head).1 = Except.ok v) : v ≠ "" ∧ pyStrip v = v := by
  simp only [UvResolver.discover] at h
  cases head with
  | ok => exact absurd h (by simp)
  | urlError m => exact absurd h (by simp)
  | httpError code headers =>
    dsimp only at h
    by_cases hcode : code ∈ UvResolver.redirectCodes
    · rw [if_pos hcode] at h
      by_cases hloc : (UvResolver.headersGet headers "Location").getD "" = ""
      · rw [if_pos hloc] at h
        exact absurd h (by simp)
      · rw [if_neg hloc] at h
        by_cases hver : UvResolver.extractUvVersionFromLocation
            ((UvResolver.headersGet headers "Location").getD "") = ""
        · rw [if_pos hver] at h
          exact absurd h (by simp)
        · rw [if_neg hver] at h
          have hveq : UvResolver.extractUvVersionFromLocation
              ((UvResolver.headersGet headers "Location").getD "") = v := by simpa using h
          exact ⟨by rw [← hveq]; exact hver, by rw [← hveq]; exact extract_stripped _⟩
    · rw [if_neg hcode] at h
      exact absurd h (by simp)

lemma python_discover_ok {fetch : String → FetchOutcome} {pv v : String}
    (h : (PythonResolver.discover fetch pv).1 = Except.ok v) : v ≠ "" ∧ pyStrip v = v := by
  simp only [PythonResolver.discover] at h
  by_cases hpv : pv = ""
  · rw [if_pos hpv] at h
    exact absurd h (by simp)
  · rw [if_neg hpv] at h
    rcases hf : PythonResolver.fetchText fetch (pythonVersionTemplateFormat pv)
      with e | content
    · simp only [hf] at h
      exact absurd h (by simp)
    · simp only [hf] at h
      by_cases hv : pyStrip content = ""
      · rw [if_pos hv] at h
        exact absurd h (by simp)
      · rw [if_neg hv] at h
        have hveq : pyStrip content = v := by simpa using h
        exact ⟨by rw [← hveq]; exact hv, by rw [← hveq]; exact pyStrip_idem _⟩

/-- C9: every version string any of the three resolvers returns
successfully — explicit override, JSON metadata field, redirect release
tag, or text-file body — is non-empty and is a fixed point of `pyStrip`
(no leading or trailing whitespace). -/
theorem resolver_success_values_trimmed_nonempty
    (fetch : String → FetchOutcome) (jsonLoads : String → Except String Json)
    (head : HeadOutcome) (explicit : Option String) (pv v : String) :
    ((AIPscanResolver.resolve fetch jsonLoads explicit).1 = Except.ok v →
      v ≠ "" ∧ pyStrip v = v) ∧
    ((UvResolver.resolve head explicit).1 = Except.ok v → v ≠ "" ∧ pyStrip v = v) ∧
    ((PythonResolver.resolve fetch explicit pv).1 = Except.ok v →
      v ≠ "" ∧ pyStrip v = v) := by
  have hov : pyTrimOpt explicit ≠ "" ∨ pyTrimOpt explicit = "" := by tauto
  refine ⟨fun h => ?_, fun h => ?_, fun h => ?_⟩
  · simp only [AIPscanResolver.resolve] at h
    rcases hov with hov | hov
    · rw [if_pos hov] at h
      have hveq : pyTrimOpt explicit = v := by simpa using h
      exact ⟨by rw [← hveq]; exact hov, by rw [← hveq]; exact pyTrimOpt_stripped _⟩
    · rw [if_neg (by simpa using hov)] at h
      exact aipscan_discover_ok h
  · simp only [UvResolver.resolve] at h
    rcases hov with hov | hov
    · rw [if_pos hov] at h
      have hveq : pyTrimOpt explicit = v := by simpa using h
      exact ⟨by rw [← hveq]; exact hov, by rw [← hveq]; exact pyTrimOpt_stripped _⟩
    · rw [if_neg (by simpa using hov)] at h
      exact uv_discover_ok h
  · simp only [PythonResolver.resolve] at h
    rcases hov with hov | hov
    · rw [if_pos hov] at h
      have hveq : pyTrimOpt explicit = v := by simpa using h
      exact ⟨by rw [← hveq]; exact hov, by rw [← hveq]; exact pyTrimOpt_stripped _⟩
    · rw [if_neg (by simpa using hov)] at h
      exact python_discover_ok h

theorem resolver_success_values_trimmed_nonempty_witness :
    "0.5.11" ≠ "" ∧ pyStrip "0.5.11" = "0.5.11" :=
  (resolver_success_values_trimmed_nonempty (fun _ => FetchOutcome.urlError "no net")
    (fun _ => Except.error "no parse") HeadOutcome.ok (some " 0.5.11 ") "" "0.5.11").1 rfl

end Versions
